import Mathlib

/-!
Shallow embedding of `tracker_scraper.go` (package torrent): the per-tracker
announce scraper.  Machine quantities are modelled as unbounded integers:
`time.Duration` and `time.Time` both become `Int` (nanoseconds; the zero
`time.Time` value is modelled as `0`).  External collaborators
(`net.LookupIP`, the blocklist predicate `ipIsBlocked`, the tracker protocol
client `tracker.Announce{...}.Do()`, and the wall clock) are passed in as an
explicit environment, so every function here is pure and executable.
-/

namespace TorrentScraper

/-- `time.Second` in nanoseconds. -/
def second : Int := 1000000000

/-- `time.Minute` in nanoseconds. -/
def minute : Int := 60 * second

/-- Model of `net.IP`: its textual rendering (`ip.String()`) and whether
`ip.To4() != nil` holds (i.e. the address is representable as IPv4). -/
structure IP where
  str : String
  isV4 : Bool
deriving DecidableEq, Repr

/-- Model of the parts of `url.URL` that `tracker_scraper.go` uses.  Go stores
`Host` as one string and derives `Hostname()`/`Port()` from it; we keep the
two components and derive `Host`, which is observationally the same for URLs
whose host parses cleanly.  `port = ""` models a URL with no explicit port. -/
structure URL where
  scheme : String
  hostname : String
  port : String
  path : String
deriving DecidableEq, Repr

/-- `net.JoinHostPort`. -/
def joinHostPort (host port : String) : String := host ++ ":" ++ port

/-- `u.Host`: `hostname` or `hostname:port`. -/
def URL.host (u : URL) : String :=
  if u.port = "" then u.hostname else joinHostPort u.hostname u.port

/-- `u.String()` for the simple URLs this file deals with. -/
def URL.render (u : URL) : String := u.scheme ++ "://" ++ u.host ++ u.path

/-- `tracker.AnnounceEvent`: the three values used by `tracker_scraper.go`. -/
inductive AnnounceEvent
  | started
  | none
  | stopped
deriving DecidableEq, Repr

/-- `trackerAnnounceResult`: `Err` as `Option String` (the error message),
`NumPeers : Nat` (a length in the source, hence non-negative), durations and
times as `Int` nanoseconds. -/
structure trackerAnnounceResult where
  Err : Option String
  NumPeers : Nat
  Interval : Int
  Completed : Int
deriving DecidableEq, Repr

/-- The zero value of `trackerAnnounceResult` (a freshly created scraper's
`lastAnnounce`). -/
def zeroAnnounceResult : trackerAnnounceResult :=
  { Err := Option.none, NumPeers := 0, Interval := 0, Completed := 0 }

/-- `trackerScraper`: the URL and the last stored announce result.  The
`t *Torrent` back-pointer is replaced by passing the external inputs it
provides (blocklist, config, clock) explicitly where needed. -/
structure trackerScraper where
  u : URL
  lastAnnounce : trackerAnnounceResult
deriving DecidableEq, Repr

/-- The error values `getIp` can produce: a failure of `net.LookupIP` itself
(carrying its message), `errors.New "no ips"`, and
`errors.New "no acceptable ips"`. -/
inductive GetIpError
  | lookupFailed (msg : String)
  | noIps
  | noAcceptableIps
deriving DecidableEq, Repr

/-- `err.Error()` for the three error shapes of `getIp`. -/
def GetIpError.message : GetIpError → String
  | .lookupFailed msg => msg
  | .noIps => "no ips"
  | .noAcceptableIps => "no acceptable ips"

/-- A resolution failure (the lookup itself errored, or it produced zero
candidates), as opposed to `noAcceptableIps`. -/
def GetIpError.resolutionFailure : GetIpError → Bool
  | .lookupFailed _ => true
  | .noIps => true
  | .noAcceptableIps => false

/-- The loop body of `getIp`: an address survives when it is not blocked and,
under scheme `"udp4"` (resp. `"udp6"`), when `ip.To4()` is non-nil
(resp. nil).  Mirrors the `continue` structure of the source loop. -/
def ipAcceptable (scheme : String) (blocked : IP → Bool) (ip : IP) : Bool :=
  if blocked ip then false
  else if scheme = "udp4" then ip.isV4
  else if scheme = "udp6" then !ip.isV4
  else true

/-- `(me *trackerScraper) getIp()`.  The result of
`net.LookupIP(me.u.Hostname())` is passed in as `lookup` (`Except.error` =
the lookup returned an error); the session's `ipIsBlocked` is `blocked`. -/
def trackerScraper.getIp (me : trackerScraper) (blocked : IP → Bool)
    (lookup : Except String (List IP)) : Except GetIpError IP :=
  match lookup with
  | .error msg => .error (.lookupFailed msg)
  | .ok ips =>
    if ips.isEmpty then .error .noIps
    else
      match ips.find? (ipAcceptable me.u.scheme blocked) with
      | some ip => .ok ip
      | Option.none => .error .noAcceptableIps

/-- `(me *trackerScraper) trackerUrl(ip)`: copy the URL; only when it has an
explicit port, replace the host with `JoinHostPort(ip.String(), port)`. -/
def trackerScraper.trackerUrl (me : trackerScraper) (ip : IP) : String :=
  let u := me.u
  if u.port ≠ "" then URL.render { u with hostname := ip.str } else u.render

/-- The successful result of `tracker.Announce{...}.Do()`: the peer list
(peers themselves are opaque, modelled as numbers) and the tracker-reported
interval in seconds. -/
structure TrackerResponse where
  Peers : List Nat
  Interval : Int
deriving DecidableEq, Repr

/-- The external inputs consumed by one call to `announce`: the DNS lookup
outcome, the blocklist, the tracker protocol client's outcome, and the value
`time.Now()` takes when the deferred completion stamp runs. -/
structure AnnounceEnv where
  lookup : Except String (List IP)
  blocked : IP → Bool
  response : Except String TrackerResponse
  now : Int

/-- `(me *trackerScraper) announce(event)`.  The body starts from the zero
result with `Interval = time.Minute`; the deferred `ret.Completed =
time.Now()` is modelled by every return path stamping `Completed := env.now`.
The `event` argument only feeds the externally-built request, so it does not
influence the result record. -/
def trackerScraper.announce (me : trackerScraper) (_event : AnnounceEvent)
    (env : AnnounceEnv) : trackerAnnounceResult :=
  match me.getIp env.blocked env.lookup with
  | .error e =>
    { Err := some ("error getting ip: " ++ e.message), NumPeers := 0,
      Interval := minute, Completed := env.now }
  | .ok _ip =>
    match env.response with
    | .error msg =>
      { Err := some ("error announcing: " ++ msg), NumPeers := 0,
        Interval := minute, Completed := env.now }
    | .ok res =>
      { Err := Option.none, NumPeers := res.Peers.length,
        Interval := res.Interval * second, Completed := env.now }

/-- Go's `%q` on the plain strings used here. -/
def goQuote (s : String) : String := "\"" ++ s ++ "\""

/-- The first closure of `statusLine`: `na := time.Until(Completed.Add(Interval))`;
if positive, truncate to whole seconds (`na /= time.Second; na *= time.Second`,
Go integer division truncates toward zero, hence `Int.tdiv`) and render it via
the external `time.Duration.String` (passed in as `d`); otherwise `"anytime"`. -/
def nextAnnounceField (ar : trackerAnnounceResult) (now : Int)
    (d : Int → String) : String :=
  let na := ar.Completed + ar.Interval - now
  if 0 < na then d (na.tdiv second * second) else "anytime"

/-- The second closure of `statusLine`: the error text, else `"never"` for a
zero completion time, else `"<n> peers"`. -/
def lastStatusField (ar : trackerAnnounceResult) : String :=
  match ar.Err with
  | some msg => msg
  | Option.none =>
    if ar.Completed = 0 then "never" else toString ar.NumPeers ++ " peers"

/-- `(ts *trackerScraper) statusLine()`: `fmt.Fprintf(&w, "%q\t%s\t%s", ...)`. -/
def trackerScraper.statusLine (ts : trackerScraper) (now : Int)
    (d : Int → String) : String :=
  goQuote ts.u.render ++ "\t" ++ nextAnnounceField ts.lastAnnounce now d
    ++ "\t" ++ lastStatusField ts.lastAnnounce

/-- Spec-side rendering of the status line, written from section 4.4 of the
spec: the endpoint's URL, then the time remaining until the next scheduled
contact rounded to whole seconds or `"anytime"` if that time has already
passed or no contact has occurred, then the error text / `"never"` /
`"<peer-count> peers"`. -/
def specStatusLine (ts : trackerScraper) (now : Int)
    (d : Int → String) : String :=
  let next := ts.lastAnnounce.Completed + ts.lastAnnounce.Interval
  let timeField :=
    if next ≤ now ∨ ts.lastAnnounce.Completed = 0 then "anytime"
    else d ((next - now).tdiv second * second)
  let outcomeField :=
    match ts.lastAnnounce.Err with
    | some msg => msg
    | Option.none =>
      if ts.lastAnnounce.Completed = 0 then "never"
      else toString ts.lastAnnounce.NumPeers ++ " peers"
  goQuote ts.u.render ++ "\t" ++ timeField ++ "\t" ++ outcomeField

/-- Lines 156-159 of `Run`: floor the announce result's interval at a minute. -/
def flooredInterval (i : Int) : Int := if i < minute then minute else i

/-- The control points of `Run`: about to announce, at the `wait:` label,
blocked in the final `select`, and returned (terminal). -/
inductive Phase
  | announcing
  | computeWait
  | waiting
  | done
deriving DecidableEq, Repr

/-- The local state of one execution of `Run`: the event variable `e`, the
last announce result `ar` (also stored into `lastAnnounce`), the computed
wait `interval`, and whether the local `wantPeers` channel has been set to
`nil` (the signal consumed for this cycle). -/
structure LoopState where
  e : AnnounceEvent
  ar : trackerAnnounceResult
  interval : Int
  wantNil : Bool
  phase : Phase
deriving DecidableEq, Repr

/-- `Run`'s entry state: `e := tracker.Started`, about to announce. -/
def initState : LoopState :=
  { e := .started, ar := zeroAnnounceResult, interval := 0, wantNil := false,
    phase := .announcing }

/-- Which branch of `Run`'s blocking `select` fires. -/
inductive WaitBranch
  | closedB
  | wantB
  | timerB
deriving DecidableEq, Repr

/-- One scheduled external input to the loop: the environment of the next
announce, the non-blocking check of `wantPeers` (`asserted` = the channel is
ready), or the branch the blocking `select` takes. -/
inductive StepInput
  | doAnnounce (env : AnnounceEnv)
  | checkWant (asserted : Bool)
  | waitFor (b : WaitBranch)

/-- Lines 154-175 of `Run`: recompute `interval` from `ar` with the 1-minute
floor, refetch the `wantPeers` channel (so it is non-nil again), and run the
non-blocking `select`: if the signal is asserted, cap `interval` to a minute
(`if interval > time.Minute`) and set the channel to nil. -/
def stepComputeWait (s : LoopState) (asserted : Bool) : LoopState :=
  let i := flooredInterval s.ar.Interval
  if asserted then
    { s with interval := if minute < i then minute else i,
             wantNil := true,
             phase := .waiting }
  else
    { s with interval := i, wantNil := false, phase := .waiting }

/-- The wall-clock deadline of the wait: `ar.Completed.Add(interval)` (the
timer channel fires `time.Until` that instant later). -/
def waitDeadline (s : LoopState) : Int := s.ar.Completed + s.interval

/-- One step of `Run` from a control point, given the next external input.
Announcing emits the event used for the attempt and resets `e` to `None`;
the blocking `select` can take the `wantPeers` branch only while the local
channel is non-nil (a consumed signal blocks that arm).  Mismatched inputs
stutter. -/
def runStep (me : trackerScraper) (s : LoopState) (inp : StepInput) :
    LoopState × List AnnounceEvent :=
  match s.phase, inp with
  | .announcing, .doAnnounce env =>
    ({ s with ar := me.announce s.e env,
              e := AnnounceEvent.none,
              phase := .computeWait }, [s.e])
  | .computeWait, .checkWant asserted => (stepComputeWait s asserted, [])
  | .waiting, .waitFor .closedB => ({ s with phase := .done }, [])
  | .waiting, .waitFor .wantB =>
    if s.wantNil then (s, []) else ({ s with phase := .computeWait }, [])
  | .waiting, .waitFor .timerB => ({ s with phase := .announcing }, [])
  | _, _ => (s, [])

/-- Drive `Run` over a finite schedule of external inputs, collecting the
events of the announce attempts it issues.  When a step reaches the terminal
phase (the `closed` branch returning from `Run`), the deferred
`announceStopped` issues one final `Stopped` attempt and the task ends. -/
def runLoop (me : trackerScraper) : LoopState → List StepInput → List AnnounceEvent
  | _, [] => []
  | s, inp :: rest =>
    let p := runStep me s inp
    p.2 ++ (if p.1.phase = .done then [AnnounceEvent.stopped]
            else runLoop me p.1 rest)

/- Concrete data for witnesses and counterexamples. -/

/-- A blocked IPv4 candidate. -/
def blockedV4 : IP := { str := "6.6.6.6", isV4 := true }

/-- An allowed IPv4 candidate. -/
def allowedV4 : IP := { str := "1.2.3.4", isV4 := true }

/-- An allowed IPv6 candidate. -/
def allowedV6 : IP := { str := "fe80::1", isV4 := false }

/-- A blocklist rejecting exactly `blockedV4`. -/
def exampleBlocklist (ip : IP) : Bool := ip.str == "6.6.6.6"

/-- A udp4 tracker URL with an explicit port. -/
def exampleUrl : URL :=
  { scheme := "udp4", hostname := "tracker.example", port := "8080",
    path := "/announce" }

/-- A tracker URL with no explicit port. -/
def noPortUrl : URL :=
  { scheme := "udp", hostname := "tracker.example", port := "",
    path := "/announce" }

/-- A scraper for `exampleUrl` with no completed announce yet. -/
def exampleScraper : trackerScraper :=
  { u := exampleUrl, lastAnnounce := zeroAnnounceResult }

/-- A scraper for the port-less URL. -/
def noPortScraper : trackerScraper :=
  { u := noPortUrl, lastAnnounce := zeroAnnounceResult }

/-- An environment where everything succeeds: three DNS candidates, a tracker
response of 7 peers and a 1800-second interval. -/
def okEnv : AnnounceEnv :=
  { lookup := .ok [blockedV4, allowedV4, allowedV6],
    blocked := exampleBlocklist,
    response := .ok { Peers := [0, 1, 2, 3, 4, 5, 6], Interval := 1800 },
    now := 1000000000000 }

/-- An environment whose DNS lookup fails outright. -/
def failEnv : AnnounceEnv :=
  { lookup := .error "lookup tracker.example: no such host",
    blocked := exampleBlocklist,
    response := .error "unreached",
    now := 2000000000000 }

/-- An environment where the tracker reports a 30-second interval. -/
def shortEnv : AnnounceEnv :=
  { lookup := .ok [allowedV4],
    blocked := exampleBlocklist,
    response := .ok { Peers := [0, 1, 2], Interval := 30 },
    now := 1000000000000 }

/-- A stand-in for the external `time.Duration.String` rendering, used to
instantiate the `d` parameter in witnesses. -/
def durRender (n : Int) : String := toString n

/-- The scraper after the successful `okEnv` announce has been stored. -/
def announcedScraper : trackerScraper :=
  { u := exampleUrl,
    lastAnnounce := exampleScraper.announce AnnounceEvent.started okEnv }

/-- A loop state parked at the `wait:` label after an announce that reported
a 30-minute interval. -/
def longIntervalState : LoopState :=
  { e := .none,
    ar := { Err := Option.none, NumPeers := 7, Interval := 1800 * second,
            Completed := 1000000000000 },
    interval := 0, wantNil := false, phase := .computeWait }

/-- `longIntervalState` blocked in the final `select`, signal not consumed. -/
def waitingFresh : LoopState :=
  { longIntervalState with interval := 1800 * second, phase := .waiting }

/-- `longIntervalState` blocked in the final `select`, signal consumed. -/
def waitingConsumed : LoopState :=
  { longIntervalState with interval := minute,
                           wantNil := true,
                           phase := .waiting }

/-! ## Shared helper lemmas -/

/-- A stored interval of exactly one minute passes the floor and the
want-peers cap untouched. -/
theorem stepComputeWait_minute (s : LoopState) (a : Bool)
    (h : s.ar.Interval = minute) : (stepComputeWait s a).interval = minute := by
  cases a <;> simp [stepComputeWait, flooredInterval, h]

/-! ## Claim theorems -/

/-- C2: on every exit path of `announce` — address-resolution failure,
protocol failure, and success — the returned result's `Completed` field is
the time at which the attempt finished (the deferred stamp), and in
particular is never the zero time when the clock is nonzero. -/
theorem announce_stamps_completed (me : trackerScraper) (event : AnnounceEvent)
    (env : AnnounceEnv) :
    (me.announce event env).Completed = env.now ∧
    (env.now ≠ 0 → (me.announce event env).Completed ≠ 0) := by
  have h : (me.announce event env).Completed = env.now := by
    unfold trackerScraper.announce
    cases me.getIp env.blocked env.lookup with
    | error e => rfl
    | ok ip =>
      cases env.response with
      | error msg => rfl
      | ok res => rfl
  exact ⟨h, fun hn => h ▸ hn⟩

/-- Witness for C2 at a concrete successful environment. -/
theorem announce_stamps_completed_witness :
    (exampleScraper.announce .started okEnv).Completed = okEnv.now ∧
    (exampleScraper.announce .started okEnv).Completed ≠ 0 :=
  ⟨(announce_stamps_completed exampleScraper .started okEnv).1,
   (announce_stamps_completed exampleScraper .started okEnv).2 (by decide)⟩

/-- C3: any failed announce attempt (resolution or protocol failure) stores
interval exactly one minute and peer-count zero, and the loop's next wait
computed from that result is exactly one minute for either state of the
want-peers signal. -/
theorem announce_failure_interval (me : trackerScraper) (event : AnnounceEvent)
    (env : AnnounceEnv) (h : (me.announce event env).Err ≠ Option.none) :
    (me.announce event env).Interval = minute ∧
    (me.announce event env).NumPeers = 0 ∧
    ∀ (s : LoopState) (a : Bool), s.ar = me.announce event env →
      (stepComputeWait s a).interval = minute := by
  rcases hg : me.getIp env.blocked env.lookup with e | ip
  · refine ⟨?_, ?_, ?_⟩
    · simp [trackerScraper.announce, hg]
    · simp [trackerScraper.announce, hg]
    · intro s a hs
      exact stepComputeWait_minute s a
        (by rw [hs]; simp [trackerScraper.announce, hg])
  · rcases hr : env.response with msg | res
    · refine ⟨?_, ?_, ?_⟩
      · simp [trackerScraper.announce, hg, hr]
      · simp [trackerScraper.announce, hg, hr]
      · intro s a hs
        exact stepComputeWait_minute s a
          (by rw [hs]; simp [trackerScraper.announce, hg, hr])
    · exact absurd (by simp [trackerScraper.announce, hg, hr]) h

/-- Witness for C3 at a concrete failing lookup. -/
theorem announce_failure_interval_witness :
    (exampleScraper.announce .none failEnv).Interval = minute ∧
    (exampleScraper.announce .none failEnv).NumPeers = 0 ∧
    (stepComputeWait
      { initState with ar := exampleScraper.announce .none failEnv }
      true).interval = minute := by
  have h := announce_failure_interval exampleScraper .none failEnv (by decide)
  exact ⟨h.1, h.2.1, h.2.2 _ true rfl⟩

/-- C4: the interval computed at the `wait:` label is the maximum of the
stored outcome's interval and one minute, and any tracker-reported interval
below one minute yields a wait of exactly one minute whatever the want-peers
signal does. -/
theorem computeWait_floor (s : LoopState) :
    (stepComputeWait s false).interval = max s.ar.Interval minute ∧
    (s.ar.Interval < minute →
      ∀ a : Bool, (stepComputeWait s a).interval = minute) := by
  constructor
  · have hmax : max s.ar.Interval minute =
        if s.ar.Interval < minute then minute else s.ar.Interval := by
      rcases le_or_lt minute s.ar.Interval with h | h
      · rw [max_eq_left h, if_neg (not_lt.mpr h)]
      · rw [max_eq_right h.le, if_pos h]
    simp [stepComputeWait, flooredInterval, hmax]
  · intro h a
    cases a <;> simp [stepComputeWait, flooredInterval, h]

/-- Witness for C4 at a 30-second stored interval. -/
theorem computeWait_floor_witness :
    (stepComputeWait { initState with ar := { zeroAnnounceResult with
      Interval := 30 * second } } true).interval = minute :=
  (computeWait_floor _).2 (by decide) true

/-- C5 counterexample: for a URL with no explicit port, `trackerUrl` keeps
the original hostname — no substitution of the resolved address happens. -/
theorem trackerUrl_no_port_counterexample :
    noPortScraper.trackerUrl allowedV4 = "udp://tracker.example/announce" ∧
    noPortScraper.trackerUrl allowedV4 ≠ "udp://1.2.3.4/announce" := by
  constructor <;> decide

/-- C5 amended: when the URL carries an explicit port, the endpoint string
substitutes the resolved address for the hostname and preserves the port;
when it carries no explicit port, the URL is rendered unchanged. -/
theorem trackerUrl_substitution (me : trackerScraper) (ip : IP) :
    (me.u.port ≠ "" →
      me.trackerUrl ip = URL.render { me.u with hostname := ip.str } ∧
      URL.host { me.u with hostname := ip.str } =
        joinHostPort ip.str me.u.port) ∧
    (me.u.port = "" → me.trackerUrl ip = me.u.render) := by
  constructor
  · intro h
    exact ⟨by simp [trackerScraper.trackerUrl, h], by simp [URL.host, h]⟩
  · intro h
    simp [trackerScraper.trackerUrl, h]

/-- Witness for the amended C5 at a URL with an explicit port. -/
theorem trackerUrl_substitution_witness :
    exampleScraper.trackerUrl allowedV4 = "udp4://1.2.3.4:8080/announce" :=
  ((trackerUrl_substitution exampleScraper allowedV4).1 (by decide)).1.trans
    (by decide)

/-- `List.find?` returns `some a` exactly when the list splits as
`pre ++ a :: post` with `a` satisfying the predicate and everything before it
failing it. -/
theorem find_first {α : Type} (p : α → Bool) (l : List α) (a : α) :
    l.find? p = some a ↔
      ∃ pre post, l = pre ++ a :: post ∧ p a = true ∧
        ∀ x ∈ pre, p x = false := by
  induction l with
  | nil => simp
  | cons b t ih =>
    by_cases hb : p b
    · rw [List.find?_cons_of_pos _ hb]
      constructor
      · intro h
        obtain rfl : b = a := by injection h
        exact ⟨[], t, rfl, hb, by simp⟩
      · rintro ⟨pre, post, heq, hpa, hpre⟩
        cases pre with
        | nil =>
          obtain ⟨rfl, -⟩ : b = a ∧ t = post := by simpa using heq
          rfl
        | cons c cs =>
          obtain ⟨rfl, -⟩ : b = c ∧ t = cs ++ a :: post := by simpa using heq
          exact absurd hb (by simp [hpre b (by simp)])
    · rw [List.find?_cons_of_neg _ hb, ih]
      constructor
      · rintro ⟨pre, post, heq, hpa, hpre⟩
        refine ⟨b :: pre, post, by rw [heq]; rfl, hpa, ?_⟩
        intro x hx
        rcases List.mem_cons.mp hx with rfl | hx
        · simpa using hb
        · exact hpre x hx
      · rintro ⟨pre, post, heq, hpa, hpre⟩
        cases pre with
        | nil =>
          obtain ⟨rfl, -⟩ : b = a ∧ t = post := by simpa using heq
          exact absurd hpa (by simpa using hb)
        | cons c cs =>
          obtain ⟨rfl, ht⟩ : b = c ∧ t = cs ++ a :: post := by simpa using heq
          exact ⟨cs, post, ht, hpa, fun x hx => hpre x (by simp [hx])⟩

/-- C6: when the lookup yields a non-empty candidate list, `getIp` returns
`ip` exactly when `ip` is the first candidate that is neither blocked nor of
the wrong family for the URL scheme. -/
theorem getIp_first_survivor (me : trackerScraper) (blocked : IP → Bool)
    (ips : List IP) (ip : IP) (hne : ips ≠ []) :
    me.getIp blocked (Except.ok ips) = Except.ok ip ↔
      ∃ pre post, ips = pre ++ ip :: post ∧
        ipAcceptable me.u.scheme blocked ip = true ∧
        ∀ x ∈ pre, ipAcceptable me.u.scheme blocked x = false := by
  rw [← find_first]
  cases ips with
  | nil => exact absurd rfl hne
  | cons c cs =>
    cases hf : (c :: cs).find? (ipAcceptable me.u.scheme blocked) with
    | none => simp [trackerScraper.getIp, hf]
    | some b => simp [trackerScraper.getIp, hf]

/-- Witness for C6: the spec's example — candidates
`[blocked-v4, allowed-v4, allowed-v6]` under a v4-only scheme yield
`allowed-v4`. -/
theorem getIp_first_survivor_witness :
    exampleScraper.getIp exampleBlocklist
      (Except.ok [blockedV4, allowedV4, allowedV6]) = Except.ok allowedV4 :=
  (getIp_first_survivor exampleScraper exampleBlocklist
      [blockedV4, allowedV4, allowedV6] allowedV4 (by decide)).mpr
    ⟨[blockedV4], [allowedV6], rfl, by decide, by decide⟩

/-- C7: `getIp` fails with a resolution-failure error (the lookup's own error
or `"no ips"`) exactly when name resolution errors or yields zero candidates,
and with the distinct `"no acceptable ips"` error exactly when candidates
exist but all are rejected by the blocklist or family filter; the kind is
computable from the returned error value. -/
theorem getIp_error_kinds (me : trackerScraper) (blocked : IP → Bool)
    (lookup : Except String (List IP)) :
    ((∃ e, me.getIp blocked lookup = Except.error e ∧
        e.resolutionFailure = true) ↔
      ((∃ msg, lookup = Except.error msg) ∨ lookup = Except.ok [])) ∧
    (me.getIp blocked lookup = Except.error GetIpError.noAcceptableIps ↔
      ∃ ips, lookup = Except.ok ips ∧ ips ≠ [] ∧
        ∀ x ∈ ips, ipAcceptable me.u.scheme blocked x = false) ∧
    GetIpError.resolutionFailure GetIpError.noAcceptableIps = false := by
  refine ⟨?_, ?_, rfl⟩
  · cases lookup with
    | error msg =>
      simp [trackerScraper.getIp, GetIpError.resolutionFailure]
    | ok ips =>
      cases ips with
      | nil =>
        simp [trackerScraper.getIp, GetIpError.resolutionFailure]
      | cons c cs =>
        constructor
        · rintro ⟨e, he, hres⟩
          exfalso
          cases hf : (c :: cs).find? (ipAcceptable me.u.scheme blocked) with
          | none =>
            have h2 : me.getIp blocked (Except.ok (c :: cs)) =
                Except.error GetIpError.noAcceptableIps := by
              simp [trackerScraper.getIp, hf]
            rw [h2] at he
            obtain rfl : GetIpError.noAcceptableIps = e := by injection he
            simp [GetIpError.resolutionFailure] at hres
          | some b =>
            have h2 : me.getIp blocked (Except.ok (c :: cs)) =
                Except.ok b := by
              simp [trackerScraper.getIp, hf]
            rw [h2] at he
            cases he
        · rintro (⟨msg, hmsg⟩ | hnil)
          · cases hmsg
          · cases hnil
  · cases lookup with
    | error msg => simp [trackerScraper.getIp]
    | ok ips =>
      cases ips with
      | nil => simp [trackerScraper.getIp]
      | cons c cs =>
        cases hf : (c :: cs).find? (ipAcceptable me.u.scheme blocked) with
        | none =>
          constructor
          · intro _
            refine ⟨c :: cs, rfl, by simp, ?_⟩
            intro x hx
            simpa using List.find?_eq_none.mp hf x hx
          · intro _
            simp [trackerScraper.getIp, hf]
        | some b =>
          constructor
          · intro h
            have h2 : me.getIp blocked (Except.ok (c :: cs)) =
                Except.ok b := by
              simp [trackerScraper.getIp, hf]
            rw [h2] at h
            cases h
          · rintro ⟨ips', hips, -, hall⟩
            obtain rfl : c :: cs = ips' := by injection hips
            have hb := List.find?_some hf
            rw [hall b (List.mem_of_find?_eq_some hf)] at hb
            cases hb

/-- Witness for C7: a failed lookup is a resolution failure, and an all-
blocked candidate list is a no-acceptable-address failure. -/
theorem getIp_error_kinds_witness :
    (∃ e, exampleScraper.getIp exampleBlocklist
        (Except.error "lookup tracker.example: no such host") =
          Except.error e ∧ e.resolutionFailure = true) ∧
    exampleScraper.getIp exampleBlocklist (Except.ok [blockedV4, allowedV6]) =
      Except.error GetIpError.noAcceptableIps :=
  ⟨(getIp_error_kinds exampleScraper exampleBlocklist
      (Except.error "lookup tracker.example: no such host")).1.mpr
        (Or.inl ⟨_, rfl⟩),
   ((getIp_error_kinds exampleScraper exampleBlocklist
      (Except.ok [blockedV4, allowedV6])).2.1.mpr
        ⟨[blockedV4, allowedV6], rfl, by decide, by decide⟩)⟩

/-- C9: the status line rendered from the stored outcome agrees with the
spec's description — quoted URL, then remaining time truncated to whole
seconds or `"anytime"` once the next-contact time has passed or when no
contact has occurred, then error text / `"never"` / `"<peer-count> peers"` —
whenever the clock is realistic (a zero completion time lies no later than
`interval` before now, as the Go zero time always does). -/
theorem statusLine_matches_spec (ts : trackerScraper) (now : Int)
    (d : Int → String)
    (h : ts.lastAnnounce.Completed = 0 → ts.lastAnnounce.Interval ≤ now) :
    ts.statusLine now d = specStatusLine ts now d := by
  unfold trackerScraper.statusLine specStatusLine nextAnnounceField
    lastStatusField
  have hx :
      (if 0 < ts.lastAnnounce.Completed + ts.lastAnnounce.Interval - now then
        d ((ts.lastAnnounce.Completed + ts.lastAnnounce.Interval - now).tdiv
          second * second)
      else "anytime") =
      (if ts.lastAnnounce.Completed + ts.lastAnnounce.Interval ≤ now ∨
          ts.lastAnnounce.Completed = 0 then "anytime"
      else
        d ((ts.lastAnnounce.Completed + ts.lastAnnounce.Interval - now).tdiv
          second * second)) := by
    by_cases hc : ts.lastAnnounce.Completed + ts.lastAnnounce.Interval ≤ now
    · rw [if_neg (by omega), if_pos (Or.inl hc)]
    · have h0 : ¬ ts.lastAnnounce.Completed = 0 := fun hz =>
        hc (by have := h hz; omega)
      rw [if_pos (by omega), if_neg (by tauto)]
  rw [hx]

/-- Witness for C9 on a stored successful announce 45 seconds after it
completed. -/
theorem statusLine_matches_spec_witness :
    announcedScraper.statusLine (1000000000000 + 45 * second) durRender =
      specStatusLine announcedScraper (1000000000000 + 45 * second)
        durRender :=
  statusLine_matches_spec announcedScraper (1000000000000 + 45 * second)
    durRender (by decide)

/-- C10: a successful announce stores the raw tracker-reported interval with
no floor; the floor appears only in the loop's wait computation, so for a
sub-minute tracker interval there is a window where the status line already
renders `"anytime"` while the loop's wait deadline is still in the future. -/
theorem raw_interval_stored (me : trackerScraper) (event : AnnounceEvent)
    (env : AnnounceEnv) (res : TrackerResponse) (ip : IP) (now : Int)
    (d : Int → String)
    (hip : me.getIp env.blocked env.lookup = Except.ok ip)
    (hres : env.response = Except.ok res)
    (hshort : res.Interval * second < minute)
    (hlo : env.now + res.Interval * second ≤ now)
    (hhi : now < env.now + minute) :
    (me.announce event env).Interval = res.Interval * second ∧
    flooredInterval (me.announce event env).Interval = minute ∧
    nextAnnounceField (me.announce event env) now d = "anytime" ∧
    ∀ s : LoopState, s.ar = me.announce event env →
      waitDeadline (stepComputeWait s false) = env.now + minute ∧
      now < waitDeadline (stepComputeWait s false) := by
  have hann : me.announce event env =
      { Err := Option.none, NumPeers := res.Peers.length,
        Interval := res.Interval * second, Completed := env.now } := by
    simp [trackerScraper.announce, hip, hres]
  rw [hann]
  refine ⟨rfl, ?_, ?_, ?_⟩
  · simp [flooredInterval, hshort]
  · simp only [nextAnnounceField]
    rw [if_neg (by omega)]
  · intro s hs
    have : waitDeadline (stepComputeWait s false) = env.now + minute := by
      simp [waitDeadline, stepComputeWait, flooredInterval, hs, hshort]
    exact ⟨this, by omega⟩

/-- Witness for C10: a 30-second tracker interval, observed 45 seconds after
completion. -/
theorem raw_interval_stored_witness :
    (exampleScraper.announce .none shortEnv).Interval = 30 * second ∧
    flooredInterval (exampleScraper.announce .none shortEnv).Interval =
      minute ∧
    nextAnnounceField (exampleScraper.announce .none shortEnv)
      (1000000000000 + 45 * second) durRender = "anytime" := by
  have h := raw_interval_stored exampleScraper .none shortEnv
    { Peers := [0, 1, 2], Interval := 30 } allowedV4
    (1000000000000 + 45 * second) durRender (by rfl) (by rfl)
    (by decide) (by decide) (by decide)
  exact ⟨h.1, h.2.1, h.2.2.1⟩

/-- Every loop step emits either nothing or exactly the pending event. -/
theorem runStep_emits (me : trackerScraper) (s : LoopState) (inp : StepInput) :
    (runStep me s inp).2 = [] ∨ (runStep me s inp).2 = [s.e] := by
  rcases s with ⟨e, ar, itv, wn, ph⟩
  rcases inp with env | a | b
  · cases ph <;> simp [runStep]
  · cases ph <;> simp [runStep]
  · cases ph <;> cases b <;> cases wn <;> simp [runStep]

/-- A loop step either keeps the pending event or resets it to `None`. -/
theorem runStep_event (me : trackerScraper) (s : LoopState) (inp : StepInput) :
    (runStep me s inp).1.e = s.e ∨
    (runStep me s inp).1.e = AnnounceEvent.none := by
  rcases s with ⟨e, ar, itv, wn, ph⟩
  rcases inp with env | a | b
  · cases ph <;> simp [runStep]
  · cases ph <;> cases a <;> simp [runStep, stepComputeWait]
  · cases ph <;> cases b <;> cases wn <;> simp [runStep]

/-- The only step that terminates the loop (the `closed` branch) emits no
event of its own. -/
theorem runStep_done_emits (me : trackerScraper) (s : LoopState)
    (inp : StepInput) (h : (runStep me s inp).1.phase = Phase.done) :
    (runStep me s inp).2 = [] := by
  rcases s with ⟨e, ar, itv, wn, ph⟩
  rcases inp with env | a | b
  · cases ph <;> simp_all [runStep]
  · cases ph <;> cases a <;> simp_all [runStep, stepComputeWait]
  · cases ph <;> cases b <;> cases wn <;> simp_all [runStep]

/-- Once the pending event is `None`, the remaining trace is some number of
`None` attempts, optionally closed off by a single final `Stopped`. -/
theorem runLoop_none_shape (me : trackerScraper) (sched : List StepInput) :
    ∀ s : LoopState, s.e = AnnounceEvent.none →
      (∃ k, runLoop me s sched = List.replicate k AnnounceEvent.none) ∨
      (∃ k, runLoop me s sched =
        List.replicate k AnnounceEvent.none ++ [AnnounceEvent.stopped]) := by
  induction sched with
  | nil => exact fun s _ => Or.inl ⟨0, rfl⟩
  | cons inp rest ih =>
    intro s hs
    rw [show runLoop me s (inp :: rest) = (runStep me s inp).2 ++
        (if (runStep me s inp).1.phase = Phase.done then [AnnounceEvent.stopped]
         else runLoop me (runStep me s inp).1 rest) from rfl]
    by_cases hd : (runStep me s inp).1.phase = Phase.done
    · rw [if_pos hd, runStep_done_emits me s inp hd]
      exact Or.inr ⟨0, by simp⟩
    · rw [if_neg hd]
      have he : (runStep me s inp).1.e = AnnounceEvent.none := by
        rcases runStep_event me s inp with h | h
        · rw [h, hs]
        · exact h
      rcases runStep_emits me s inp with h2 | h2 <;> rw [h2]
      · simpa using ih (runStep me s inp).1 he
      · rw [hs]
        rcases ih (runStep me s inp).1 he with ⟨k, hk⟩ | ⟨k, hk⟩
        · exact Or.inl ⟨k + 1, by rw [hk]; simp [List.replicate_succ]⟩
        · exact Or.inr ⟨k + 1, by rw [hk]; simp [List.replicate_succ]⟩

/-- From the entry state (pending event `Started`, about to announce), the
trace is empty or starts with `Started` followed by `None`s and at most one
final `Stopped`. -/
theorem runLoop_started_shape (me : trackerScraper) (sched : List StepInput) :
    ∀ s : LoopState, s.e = AnnounceEvent.started → s.phase = Phase.announcing →
      runLoop me s sched = [] ∨
      ∃ tl, runLoop me s sched = AnnounceEvent.started :: tl ∧
        ((∃ k, tl = List.replicate k AnnounceEvent.none) ∨
         (∃ k, tl = List.replicate k AnnounceEvent.none ++
            [AnnounceEvent.stopped])) := by
  induction sched with
  | nil => exact fun s _ _ => Or.inl rfl
  | cons inp rest ih =>
    rintro ⟨e, ar, itv, wn, ph⟩ hs hp
    obtain rfl : e = AnnounceEvent.started := hs
    obtain rfl : ph = Phase.announcing := hp
    rcases inp with env | a | b
    · right
      refine ⟨_, rfl, ?_⟩
      exact runLoop_none_shape me rest _ rfl
    · exact ih ⟨AnnounceEvent.started, ar, itv, wn, Phase.announcing⟩ rfl rfl
    · cases b <;>
        exact ih ⟨AnnounceEvent.started, ar, itv, wn, Phase.announcing⟩ rfl rfl

/-- C1: over any schedule of external inputs, the events of the announce
attempts issued by one execution of `Run` form the sequence `Started`, then
zero or more `None`, with a single `Stopped` issued (at most once) as the
very last attempt when the loop terminates — never reordered or repeated
except `None`. -/
theorem run_event_order (me : trackerScraper) (sched : List StepInput) :
    runLoop me initState sched = [] ∨
    ∃ tl, runLoop me initState sched = AnnounceEvent.started :: tl ∧
      ((∃ k, tl = List.replicate k AnnounceEvent.none) ∨
       (∃ k, tl = List.replicate k AnnounceEvent.none ++
          [AnnounceEvent.stopped])) :=
  runLoop_started_shape me sched initState rfl rfl

/-- C8: when the want-more-peers signal is asserted while the computed
interval exceeds one minute, the loop caps the interval to one minute (so
the deadline becomes one minute after the last completion) and marks the
signal consumed; a consumed signal cannot fire the blocking select again
within the cycle, while a fresh assertion sends the loop back to interval
recomputation without issuing any announce. -/
theorem want_signal_cap_and_consume (me : trackerScraper) (s : LoopState) :
    (minute < flooredInterval s.ar.Interval →
      (stepComputeWait s true).interval = minute ∧
      (stepComputeWait s true).wantNil = true ∧
      waitDeadline (stepComputeWait s true) = s.ar.Completed + minute) ∧
    (s.phase = Phase.waiting → s.wantNil = true →
      runStep me s (StepInput.waitFor WaitBranch.wantB) = (s, [])) ∧
    (s.phase = Phase.waiting → s.wantNil = false →
      runStep me s (StepInput.waitFor WaitBranch.wantB) =
        ({ s with phase := Phase.computeWait }, [])) := by
  refine ⟨fun h => ?_, fun hp hw => ?_, fun hp hw => ?_⟩
  · refine ⟨?_, ?_, ?_⟩ <;>
      simp [stepComputeWait, waitDeadline, if_pos h]
  · rcases s with ⟨e, ar, itv, wn, ph⟩
    obtain rfl : ph = Phase.waiting := hp
    obtain rfl : wn = true := hw
    rfl
  · rcases s with ⟨e, ar, itv, wn, ph⟩
    obtain rfl : ph = Phase.waiting := hp
    obtain rfl : wn = false := hw
    rfl

/-- Witness for C8 on a stored 30-minute interval: the cap, the consumed
signal's inertness, and the fresh signal's return to recomputation. -/
theorem want_signal_cap_and_consume_witness :
    (stepComputeWait longIntervalState true).interval = minute ∧
    runStep exampleScraper waitingConsumed
      (StepInput.waitFor WaitBranch.wantB) = (waitingConsumed, []) ∧
    runStep exampleScraper waitingFresh
      (StepInput.waitFor WaitBranch.wantB) =
        ({ waitingFresh with phase := Phase.computeWait }, []) := by
  refine ⟨?_, ?_, ?_⟩
  · exact ((want_signal_cap_and_consume exampleScraper
      longIntervalState).1 (by decide)).1
  · exact (want_signal_cap_and_consume exampleScraper
      waitingConsumed).2.1 (by decide) (by decide)
  · exact (want_signal_cap_and_consume exampleScraper
      waitingFresh).2.2 (by decide) (by decide)

end TorrentScraper
